import Mathlib

/-!
Verification development for the TalentTalk matching and extraction pipeline.

The repository ships the React frontend (CandidateCard.js, UploadButton.js,
CandidatePortal.js, the axios API client) and declares a FastAPI backend
(resume_parser.py, matcher.py) whose source is not part of the checkout; only
its callers and documentation are. Definitions for the backend pipeline are
therefore modelled from the specification (each such definition says so in its
doc comment), while the frontend functions are embedded directly from their
JavaScript source.

Numeric conventions: scores and confidences are rationals (ℚ); JavaScript
division by 1024*1024 on integer file sizes is exact in binary floating point,
so the rational model is faithful there.
-/

namespace TalentTalk

/-! ## Match categories and thresholds -/

/-- Match category for a (candidate, job) pair. -/
inductive Category where
  | Weak
  | Potential
  | Good
  | Strong
deriving DecidableEq, Repr

/-- Numeric rank of a category, used to state monotonicity of the
threshold function. -/
def Category.rank : Category → Nat
  | .Weak => 0
  | .Potential => 1
  | .Good => 2
  | .Strong => 3

/-- Modelled from the spec: the category thresholds of ScoringEngine
(`score>=85→Strong`, `>=70→Good`, `>=50→Potential`, else `Weak`); the backend
matcher.py that applies them is not in the checkout. -/
def categoryOf (s : ℚ) : Category :=
  if 85 ≤ s then .Strong
  else if 70 ≤ s then .Good
  else if 50 ≤ s then .Potential
  else .Weak

/-- Embedded from src/frontend/src/components/CandidateCard.js, `getScoreColor`:
the frontend colour class for a score, using the same fixed thresholds. -/
def getScoreColor (score : ℚ) : String :=
  if 85 ≤ score then "score-excellent"
  else if 70 ≤ score then "score-good"
  else if 50 ≤ score then "score-average"
  else "score-poor"

/-! ## Data model (spec §3) -/

/-- Modelled from the spec: a candidate Profile; any field may be absent. -/
structure Profile where
  name : Option String
  email : Option String
  skills : Option (Finset String)
  experience_summary : Option String
  titles : List String
deriving DecidableEq

/-- Modelled from the spec: a structured job Requirement. -/
structure Requirement where
  required_skills : Option (Finset String)
  nice_to_have_skills : Option (Finset String)
  min_experience_years : Option ℚ
  raw_text : String
deriving DecidableEq

/-- Modelled from the spec: a MatchResult value object. -/
structure MatchResult where
  candidate_id : Nat
  job_id : Nat
  score : ℚ
  confidence : ℚ
  category : Category
  explanation : String
  key_strengths : List String
deriving DecidableEq

/-! ## FallbackHeuristics (spec §4.4) -/

/-- Modelled from the spec: the deterministic fallback scorer.
`skill_overlap = |profile.skills ∩ requirement.required_skills| /
max(1, |requirement.required_skills|)`; `score = round(100 * skill_overlap)`;
`confidence = 0.4`. Absent skills sets behave as empty sets, yielding score 0
rather than an error. -/
def score_fallback (cid jid : Nat) (p : Profile) (r : Requirement) : MatchResult :=
  let ps : Finset String := p.skills.getD ∅
  let rs : Finset String := r.required_skills.getD ∅
  let overlap : ℚ := ((ps ∩ rs).card : ℚ) / (max 1 rs.card : ℚ)
  let s : ℚ := ((round (100 * overlap) : ℤ) : ℚ)
  { candidate_id := cid
    job_id := jid
    score := s
    confidence := 2/5
    category := categoryOf s
    explanation := "Deterministic fallback: scored by required-skill overlap."
    key_strengths := (ps ∩ rs).sort (· ≤ ·) }

/-! ## ScoringEngine (spec §4.3) -/

/-- Modelled from the spec: error taxonomy of the generation backend. -/
inductive BackendErr where
  | BackendUnavailable
  | MalformedResponse
deriving DecidableEq

/-- Modelled from the spec: the raw JSON-shaped answer demanded from the
generative scoring backend. -/
structure RawScore where
  score : ℚ
  confidence : ℚ
  explanation : String
  key_strengths : List String

/-- Clamp a score into [0, 100] (spec §4.3 numeric semantics). -/
def clampScore (s : ℚ) : ℚ := max 0 (min 100 s)

/-- Modelled from the spec: ScoringEngine.score for a single pair. The
generation backend is passed explicitly as a function returning either a raw
response or a failure. A failure, or a response whose confidence is not in
[0,1] (schema violation), degrades to `score_fallback`; an accepted response
has its score clamped to [0,100] and its category recomputed from the fixed
thresholds. -/
def score_pair (backend : Profile → Requirement → Except BackendErr RawScore)
    (cid jid : Nat) (p : Profile) (r : Requirement) : MatchResult :=
  match backend p r with
  | .error _ => score_fallback cid jid p r
  | .ok raw =>
      if 0 ≤ raw.confidence ∧ raw.confidence ≤ 1 then
        let s := clampScore raw.score
        { candidate_id := cid
          job_id := jid
          score := s
          confidence := raw.confidence
          category := categoryOf s
          explanation := raw.explanation
          key_strengths := raw.key_strengths }
      else score_fallback cid jid p r

/-! ## MatchRanker (spec §4.5) -/

/-- Comparator for ranking: descending by score, ties broken by confidence
descending, then by candidate id ascending. -/
def matchLE (a b : MatchResult) : Bool :=
  decide (b.score < a.score ∨
    (a.score = b.score ∧ (b.confidence < a.confidence ∨
      (a.confidence = b.confidence ∧ a.candidate_id ≤ b.candidate_id))))

/-- Modelled from the spec: MatchRanker.rank — score every candidate
independently, sort by the deterministic comparator, truncate to `k`. -/
def rank_candidates (backend : Profile → Requirement → Except BackendErr RawScore)
    (jid : Nat) (r : Requirement) (cands : List (Nat × Profile)) (k : Nat) :
    List MatchResult :=
  ((cands.map (fun c => score_pair backend c.1 jid c.2 r)).mergeSort matchLE).take k

/-! ## TextExtractor (spec §4.1) -/

/-- Modelled from the spec: error taxonomy of the extraction backend. -/
inductive ExtractErr where
  | BackendUnavailable
  | MalformedResponse
deriving DecidableEq

/-- Modelled from the spec: the structured answer of the extraction backend. -/
structure RawProfile where
  name : Option String
  email : Option String
  skills : List String
  experience_summary : Option String
  titles : List String

/-- Does `needle` occur contiguously inside the second list? Boolean scan. -/
def containsSeq (needle : List Char) : List Char → Bool
  | [] => needle.isEmpty
  | c :: cs => List.isPrefixOf needle (c :: cs) || containsSeq needle cs

/-- Modelled from the spec: the keyword-scan skills heuristic — match the raw
text against a known skills vocabulary, case-insensitive, de-duplicated. -/
def scanSkills (vocab : List String) (raw : String) : Finset String :=
  (vocab.filter (fun v => containsSeq v.toLower.data raw.toLower.data)).toFinset

/-- The all-empty Profile (empty skills set, every other field absent). -/
def emptyProfile : Profile :=
  { name := none, email := none, skills := some ∅
    experience_summary := none, titles := [] }

/-- Modelled from the spec: TextExtractor.extract / `extract_profile`; the
backend resume_parser.py is not in the checkout. Empty input yields the empty
Profile; long input is truncated to 20000 characters; a backend failure
degrades to the keyword-scan heuristic for `skills` with all other fields
empty — the failure is never surfaced. -/
def extract_profile (backend : String → Except ExtractErr RawProfile)
    (vocab : List String) (raw : String) : Profile :=
  if raw = "" then emptyProfile
  else
    let t := raw.take 20000
    match backend t with
    | .ok rp =>
        { name := rp.name, email := rp.email, skills := some rp.skills.toFinset
          experience_summary := rp.experience_summary, titles := rp.titles }
    | .error _ =>
        { name := none, email := none, skills := some (scanSkills vocab t)
          experience_summary := none, titles := [] }

/-! ## JavaScript value model for the frontend embeddings -/

/-- Runtime JavaScript values, as far as the embedded frontend functions
inspect them (objects are not needed by those functions). -/
inductive JSValue where
  | null
  | undef
  | bool (b : Bool)
  | num (q : ℚ)
  | str (s : String)
  | arr (xs : List JSValue)

/-- Is the value an array? -/
def JSValue.isArray : JSValue → Bool
  | .arr _ => true
  | _ => false

/-- JavaScript truthiness test (`!skills`), restricted to the modelled values:
null, undefined, false, 0 and the empty string are falsy. -/
def jsFalsy : JSValue → Bool
  | .null => true
  | .undef => true
  | .bool b => !b
  | .num q => decide (q = 0)
  | .str s => decide (s = "")
  | .arr _ => false

/-! A small model of `JSON.parse`. It covers the value grammar the embedded
code can meet: null, true, false, decimal numbers (optional minus and
fraction), double-quoted strings without escape sequences, and arrays of such
values, with surrounding whitespace; a top-level value followed only by
whitespace. Inputs outside this grammar (objects, escapes, exponents) are
reported as parse failures, which the source maps to its catch branch. -/

/-- Skip JSON whitespace characters. -/
def skipWs : List Char → List Char
  | [] => []
  | c :: cs =>
      if c = ' ' ∨ c = '\t' ∨ c = '\n' ∨ c = '\r' then skipWs cs else c :: cs

/-- Parse the body of a double-quoted string (after the opening quote); no
escape sequences. Returns the string and the remaining input. -/
def parseStrBody : List Char → Option (String × List Char)
  | [] => none
  | c :: cs =>
      if c = '"' then some ("", cs)
      else if c = '\\' then none
      else
        match parseStrBody cs with
        | some (s, r) => some (String.mk (c :: s.data), r)
        | none => none

/-- Split a leading run of decimal digits off a character list. -/
def takeDigits : List Char → List Char × List Char
  | [] => ([], [])
  | c :: cs =>
      if c.isDigit then
        let p := takeDigits cs
        (c :: p.1, p.2)
      else ([], c :: cs)

/-- Numeric value of a digit run. -/
def digitsToNat (ds : List Char) : Nat :=
  ds.foldl (fun n c => 10 * n + (c.toNat - 48)) 0

/-- Parse a JSON number (optional minus, digits, optional fraction). -/
def parseNumber (cs : List Char) : Option (JSValue × List Char) :=
  let sgn : ℚ × List Char := match cs with
    | '-' :: r => (-1, r)
    | _ => (1, cs)
  match takeDigits sgn.2 with
  | ([], _) => none
  | (ds, rest) =>
      match rest with
      | '.' :: r2 =>
          match takeDigits r2 with
          | ([], _) => none
          | (fs, r3) =>
              some (.num (sgn.1 * ((digitsToNat ds : ℚ) +
                (digitsToNat fs : ℚ) / (10 : ℚ) ^ fs.length)), r3)
      | _ => some (.num (sgn.1 * (digitsToNat ds : ℚ)), rest)

mutual

/-- Parse one JSON value; the fuel bounds nesting and item count. -/
def parseVal : Nat → List Char → Option (JSValue × List Char)
  | 0, _ => none
  | fuel + 1, cs =>
      let cs := skipWs cs
      if List.isPrefixOf "null".data cs then some (.null, cs.drop 4)
      else if List.isPrefixOf "true".data cs then some (.bool true, cs.drop 4)
      else if List.isPrefixOf "false".data cs then some (.bool false, cs.drop 5)
      else
        match cs with
        | '"' :: rest =>
            match parseStrBody rest with
            | some (s, r) => some (.str s, r)
            | none => none
        | '[' :: rest =>
            match skipWs rest with
            | ']' :: r => some (.arr [], r)
            | r =>
                match parseItems fuel r with
                | some (vs, r2) => some (.arr vs, r2)
                | none => none
        | other => parseNumber other

/-- Parse a nonempty comma-separated item list up to the closing bracket. -/
def parseItems : Nat → List Char → Option (List JSValue × List Char)
  | 0, _ => none
  | fuel + 1, cs =>
      match parseVal fuel cs with
      | none => none
      | some (v, r) =>
          match skipWs r with
          | ',' :: r2 =>
              match parseItems fuel r2 with
              | some (vs, r3) => some (v :: vs, r3)
              | none => none
          | ']' :: r2 => some ([v], r2)
          | _ => none

end

/-- Model of `JSON.parse` on a whole string: one value, then only
whitespace. -/
def jsonParse (s : String) : Option JSValue :=
  match parseVal (s.data.length + 1) s.data with
  | some (v, rest) => if skipWs rest = [] then some v else none
  | none => none

/-- Embedded from src/frontend/src/components/CandidateCard.js,
`formatSkills`: falsy input yields `[]`; a string is JSON-parsed, the parsed
value being returned as-is, and on parse failure split on commas with each
part trimmed; an array is returned unchanged; anything else yields `[]`. -/
def formatSkills (skills : JSValue) : JSValue :=
  if jsFalsy skills then .arr []
  else
    match skills with
    | .str s =>
        match jsonParse s with
        | some v => v
        | none => .arr ((s.splitOn ",").map (fun t => JSValue.str t.trim))
    | .arr xs => .arr xs
    | _ => .arr []

/-! ## withRetry (frontend API client) -/

/-- Outcome of the `withRetry` async function: a resolved value, a rethrown
error, or the implicit `undefined` when the loop body never runs. -/
inductive RetryResult (E A : Type) where
  | ok (a : A)
  | thrown (e : E)
  | undef
deriving DecidableEq

/-- Loop body of `withRetry`: `remaining` attempts are left and the current
attempt number is `attempt`; returns the outcome and the number of calls made.
On the last remaining attempt a failure is rethrown; with no remaining
attempts the loop exits and the function returns `undefined`. -/
def runRetry (calls : Nat → Except E A) : Nat → Nat → RetryResult E A × Nat
  | 0, _ => (.undef, 0)
  | 1, attempt =>
      match calls attempt with
      | .ok a => (.ok a, 1)
      | .error e => (.thrown e, 1)
  | n + 2, attempt =>
      match calls attempt with
      | .ok a => (.ok a, 1)
      | .error _ =>
          let rest := runRetry calls (n + 1) (attempt + 1)
          (rest.1, rest.2 + 1)

/-- Embedded from the API client (src/unnamed/part_000), `withRetry`:
`for (let attempt = 1; attempt <= maxRetries; attempt++) try return await
apiCall() catch: if attempt === maxRetries throw`. `calls n` is the outcome of
the n-th invocation of `apiCall` (attempts are numbered from 1). Returns the
outcome together with how many times `apiCall` was invoked. -/
def withRetry (calls : Nat → Except E A) (maxRetries : Int) :
    RetryResult E A × Nat :=
  runRetry calls maxRetries.toNat 1

/-! ## UploadButton (frontend) -/

/-- The two fields of a selected file that `handleFileChange` inspects. -/
structure JSFile where
  name : String
  size : Nat
deriving DecidableEq

/-- Observable outcome of `handleFileChange`: the argument passed to
`onFileSelect` (if it was called) and whether `event.target.value` was
reset. -/
structure ChangeOutcome where
  selected : Option JSFile
  reset : Bool
deriving DecidableEq

/-- Embedded from src/frontend/src/components/UploadButton.js: the lowercase
extension `'.' + file.name.split('.').pop().toLowerCase()`. -/
def fileExt (name : String) : String :=
  "." ++ ((name.splitOn ".").getLastD "").toLower

/-- Embedded from src/frontend/src/components/UploadButton.js: the accepted
extension list `acceptedTypes.split(',').map(type => type.trim().toLowerCase())`. -/
def acceptedExtList (acceptedTypes : String) : List String :=
  (acceptedTypes.splitOn ",").map (fun t => t.trim.toLower)

/-- Embedded from src/frontend/src/components/UploadButton.js,
`handleFileChange`: with a chosen file, an oversized file or a wrong-typed
file alerts and returns early (skipping the reset of the input value); an
accepted file is passed to `onFileSelect` and the input value is reset; with
no chosen file only the reset runs. -/
def handleFileChange (acceptedTypes : String) (maxSizeInMB : ℚ)
    (chosen : Option JSFile) : ChangeOutcome :=
  match chosen with
  | none => { selected := none, reset := true }
  | some f =>
      if maxSizeInMB < (f.size : ℚ) / (1024 * 1024) then
        { selected := none, reset := false }
      else if (acceptedExtList acceptedTypes).contains (fileExt f.name) then
        { selected := some f, reset := true }
      else
        { selected := none, reset := false }

/-! ## Concrete example inputs -/

/-- A generation backend that always fails (backend outage). -/
def failBackend : Profile → Requirement → Except BackendErr RawScore :=
  fun _ _ => .error .BackendUnavailable

/-- A generation backend returning an out-of-range score with a valid
confidence. -/
def overconfidentBackend : Profile → Requirement → Except BackendErr RawScore :=
  fun _ _ =>
    .ok { score := 150, confidence := 1/2, explanation := "ai", key_strengths := [] }

/-- An extraction backend that always reports the outage failure. -/
def failExtractBackend : String → Except ExtractErr RawProfile :=
  fun _ => .error .BackendUnavailable

/-- The spec §8 example profile: skills python and sql. -/
def profilePySql : Profile :=
  { name := some "Ada", email := none, skills := some {"python", "sql"}
    experience_summary := none, titles := [] }

/-- The spec §8 example requirement: required skills python, sql, aws. -/
def reqPySqlAws : Requirement :=
  { required_skills := some {"python", "sql", "aws"}, nice_to_have_skills := none
    min_experience_years := none, raw_text := "backend role" }

/-- A profile whose skills set is absent. -/
def noneProfile : Profile :=
  { name := none, email := none, skills := none
    experience_summary := none, titles := [] }

/-- A requirement whose required skills set is absent. -/
def noneReq : Requirement :=
  { required_skills := none, nice_to_have_skills := none
    min_experience_years := none, raw_text := "" }

/-- Ten demo candidates for the resilience scenario of spec §8. -/
def demoCands : List (Nat × Profile) :=
  (List.range 10).map (fun i => (i + 1, profilePySql))

/-! ## Helper lemmas -/

theorem score_fallback_confidence_eq (cid jid : Nat) (p : Profile) (r : Requirement) :
    (score_fallback cid jid p r).confidence = 2/5 := rfl

theorem score_fallback_score_def (cid jid : Nat) (p : Profile) (r : Requirement) :
    (score_fallback cid jid p r).score =
      ((round (100 * (((p.skills.getD ∅ ∩ r.required_skills.getD ∅).card : ℚ) /
        (max 1 (r.required_skills.getD ∅).card : ℚ))) : ℤ) : ℚ) := rfl

theorem score_fallback_category_eq (cid jid : Nat) (p : Profile) (r : Requirement) :
    (score_fallback cid jid p r).category = categoryOf (score_fallback cid jid p r).score := rfl

theorem overlapRatio_bounds (ps rs : Finset String) :
    0 ≤ ((ps ∩ rs).card : ℚ) / (max 1 rs.card : ℚ) ∧
      ((ps ∩ rs).card : ℚ) / (max 1 rs.card : ℚ) ≤ 1 := by
  have hd : (0:ℚ) < (max 1 rs.card : ℚ) := by
    have h1 : (1:ℕ) ≤ max 1 rs.card := le_max_left _ _
    exact_mod_cast Nat.lt_of_lt_of_le Nat.zero_lt_one h1
  refine ⟨div_nonneg (by positivity) hd.le, ?_⟩
  rw [div_le_one hd]
  have h1 : (ps ∩ rs).card ≤ rs.card := Finset.card_le_card Finset.inter_subset_right
  have h2 : rs.card ≤ max 1 rs.card := le_max_right _ _
  exact_mod_cast h1.trans h2

theorem round_bounds_aux {x : ℚ} (h0 : 0 ≤ x) (h1 : x ≤ 100) :
    (0:ℤ) ≤ round x ∧ round x ≤ 100 := by
  rw [round_eq]
  constructor
  · have hf : ⌊(1/2 : ℚ)⌋ ≤ ⌊x + 1/2⌋ := Int.floor_le_floor (by linarith)
    have hz : ⌊(1/2 : ℚ)⌋ = 0 := by norm_num [Int.floor_eq_iff]
    omega
  · have hf : ⌊x + 1/2⌋ ≤ ⌊(100:ℚ) + 1/2⌋ := Int.floor_le_floor (by linarith)
    have hz : ⌊(100:ℚ) + 1/2⌋ = 100 := by norm_num [Int.floor_eq_iff]
    omega

theorem score_fallback_score_bounds (cid jid : Nat) (p : Profile) (r : Requirement) :
    0 ≤ (score_fallback cid jid p r).score ∧ (score_fallback cid jid p r).score ≤ 100 := by
  rw [score_fallback_score_def]
  obtain ⟨h0, h1⟩ :=
    overlapRatio_bounds (p.skills.getD ∅) (r.required_skills.getD ∅)
  obtain ⟨g0, g1⟩ := round_bounds_aux (x :=
      100 * (((p.skills.getD ∅ ∩ r.required_skills.getD ∅).card : ℚ) /
        (max 1 (r.required_skills.getD ∅).card : ℚ)))
    (by nlinarith) (by nlinarith)
  constructor
  · exact_mod_cast g0
  · exact_mod_cast g1

theorem clampScore_bounds (s : ℚ) : 0 ≤ clampScore s ∧ clampScore s ≤ 100 := by
  unfold clampScore
  constructor
  · exact le_max_left _ _
  · exact max_le (by norm_num) (min_le_left _ _)

theorem score_pair_cases (B : Profile → Requirement → Except BackendErr RawScore)
    (cid jid : Nat) (p : Profile) (r : Requirement) :
    score_pair B cid jid p r = score_fallback cid jid p r ∨
      ∃ raw, B p r = .ok raw ∧
        (score_pair B cid jid p r).score = clampScore raw.score ∧
        (score_pair B cid jid p r).confidence = raw.confidence := by
  unfold score_pair
  cases hB : B p r with
  | error e => exact Or.inl rfl
  | ok raw =>
      by_cases h : 0 ≤ raw.confidence ∧ raw.confidence ≤ 1
      · exact Or.inr ⟨raw, rfl, by simp [h], by simp [h]⟩
      · exact Or.inl (by simp [h])

theorem score_pair_conf_cases (B : Profile → Requirement → Except BackendErr RawScore)
    (cid jid : Nat) (p : Profile) (r : Requirement) :
    (score_pair B cid jid p r).confidence = 2/5 ∨
      (0 ≤ (score_pair B cid jid p r).confidence ∧ (score_pair B cid jid p r).confidence ≤ 1) := by
  unfold score_pair
  cases hB : B p r with
  | error e => exact Or.inl rfl
  | ok raw =>
      by_cases h : 0 ≤ raw.confidence ∧ raw.confidence ≤ 1
      · exact Or.inr (by simp [h])
      · exact Or.inl (by simp [h, score_fallback_confidence_eq])

theorem score_pair_category_eq (B : Profile → Requirement → Except BackendErr RawScore)
    (cid jid : Nat) (p : Profile) (r : Requirement) :
    (score_pair B cid jid p r).category = categoryOf (score_pair B cid jid p r).score := by
  unfold score_pair
  cases hB : B p r with
  | error e => rfl
  | ok raw =>
      by_cases h : 0 ≤ raw.confidence ∧ raw.confidence ≤ 1 <;>
        simp [h, score_fallback_category_eq]

theorem score_pair_bounds (B : Profile → Requirement → Except BackendErr RawScore)
    (cid jid : Nat) (p : Profile) (r : Requirement) :
    0 ≤ (score_pair B cid jid p r).score ∧ (score_pair B cid jid p r).score ≤ 100 ∧
      0 ≤ (score_pair B cid jid p r).confidence ∧ (score_pair B cid jid p r).confidence ≤ 1 := by
  have hs : 0 ≤ (score_pair B cid jid p r).score ∧ (score_pair B cid jid p r).score ≤ 100 := by
    rcases score_pair_cases B cid jid p r with h | ⟨raw, _, hsc, _⟩
    · rw [h]; exact score_fallback_score_bounds cid jid p r
    · rw [hsc]; exact clampScore_bounds raw.score
  have hc : 0 ≤ (score_pair B cid jid p r).confidence ∧
      (score_pair B cid jid p r).confidence ≤ 1 := by
    rcases score_pair_conf_cases B cid jid p r with h | h
    · rw [h]; norm_num
    · exact h
  exact ⟨hs.1, hs.2, hc.1, hc.2⟩

/-! ## Claim theorems -/

/-- C1: the match category is a pure, deterministic, monotonic function of the
numeric score with the fixed thresholds 85/70/50 (s ≥ 85 Strong, 70 ≤ s < 85
Good, 50 ≤ s < 70 Potential, s < 50 Weak); it is applied identically on the AI
and fallback paths of `score_pair`, and the frontend `getScoreColor` mirrors
the same thresholds. -/
theorem c1_category_thresholds :
    (∀ s : ℚ, (85 ≤ s → categoryOf s = Category.Strong) ∧
      (70 ≤ s → s < 85 → categoryOf s = Category.Good) ∧
      (50 ≤ s → s < 70 → categoryOf s = Category.Potential) ∧
      (s < 50 → categoryOf s = Category.Weak)) ∧
    (∀ s t : ℚ, s ≤ t → (categoryOf s).rank ≤ (categoryOf t).rank) ∧
    (∀ B cid jid p r, (score_pair B cid jid p r).category =
      categoryOf (score_pair B cid jid p r).score) ∧
    (∀ s : ℚ, getScoreColor s =
      match categoryOf s with
      | Category.Strong => "score-excellent"
      | Category.Good => "score-good"
      | Category.Potential => "score-average"
      | Category.Weak => "score-poor") := by
  refine ⟨?_, ?_, ?_, ?_⟩
  · intro s
    refine ⟨fun h => ?_, fun h1 h2 => ?_, fun h1 h2 => ?_, fun h => ?_⟩ <;>
      unfold categoryOf <;> split_ifs <;> first | rfl | linarith
  · intro s t hst
    unfold categoryOf
    split_ifs <;> simp only [Category.rank] <;> first | rfl | omega | linarith
  · exact score_pair_category_eq
  · intro s
    unfold getScoreColor categoryOf
    split_ifs <;> rfl

/-- Witness for C1 at the concrete score 90. -/
theorem c1_category_thresholds_witness :
    (85 ≤ (90:ℚ)) ∧ categoryOf 90 = Category.Strong :=
  ⟨by norm_num, (c1_category_thresholds.1 90).1 (by norm_num)⟩

/-- C3: the fallback scorer has fixed confidence 0.4 = 2/5; an absent skills
set on either side yields score 0 rather than an error; and on the spec §8
example (profile skills python, sql against required python, sql, aws) it
yields score 67 and confidence 0.4. -/
theorem c3_fallback_correctness :
    (∀ cid jid p r, (score_fallback cid jid p r).confidence = 2/5) ∧
    (∀ cid jid (p : Profile) r, p.skills = none →
      (score_fallback cid jid p r).score = 0) ∧
    (∀ cid jid p (r : Requirement), r.required_skills = none →
      (score_fallback cid jid p r).score = 0) ∧
    (score_fallback 1 2 profilePySql reqPySqlAws).score = 67 ∧
    (score_fallback 1 2 profilePySql reqPySqlAws).confidence = 2/5 := by
  refine ⟨fun _ _ _ _ => rfl, ?_, ?_, ?_, rfl⟩
  · intro cid jid p r h
    rw [score_fallback_score_def, h]
    simp [Finset.empty_inter]
  · intro cid jid p r h
    rw [score_fallback_score_def, h]
    simp [Finset.inter_empty]
  · have hps : profilePySql.skills.getD ∅ = {"python", "sql"} := rfl
    have hrs : reqPySqlAws.required_skills.getD ∅ = {"python", "sql", "aws"} := rfl
    rw [score_fallback_score_def, hps, hrs]
    have hc : (({"python", "sql"} : Finset String) ∩ {"python", "sql", "aws"}).card = 2 := by
      decide
    have hr : ({"python", "sql", "aws"} : Finset String).card = 3 := by decide
    rw [hc, hr]
    norm_num
    rw [round_eq]
    norm_num [Int.floor_eq_iff]

/-- Witness for C3 with an absent profile skills set. -/
theorem c3_fallback_correctness_witness :
    noneProfile.skills = none ∧ (score_fallback 0 0 noneProfile reqPySqlAws).score = 0 :=
  ⟨rfl, c3_fallback_correctness.2.1 0 0 noneProfile reqPySqlAws rfl⟩

/-- C4: every MatchResult produced by `score_pair` — AI path, fallback path or
rejected-response path — has score in [0,100] and confidence in [0,1]; an
accepted AI response has its score clamped, so a backend score of 150 with
valid confidence produces exactly 100. -/
theorem c4_result_invariants :
    (∀ B cid jid p r,
      0 ≤ (score_pair B cid jid p r).score ∧ (score_pair B cid jid p r).score ≤ 100 ∧
      0 ≤ (score_pair B cid jid p r).confidence ∧
        (score_pair B cid jid p r).confidence ≤ 1) ∧
    (∀ B cid jid p r, score_pair B cid jid p r = score_fallback cid jid p r ∨
      ∃ raw, B p r = .ok raw ∧
        (score_pair B cid jid p r).score = clampScore raw.score ∧
        (score_pair B cid jid p r).confidence = raw.confidence) ∧
    (score_pair overconfidentBackend 0 0 profilePySql reqPySqlAws).score = 100 := by
  refine ⟨score_pair_bounds, score_pair_cases, ?_⟩
  unfold score_pair overconfidentBackend
  norm_num [clampScore]

theorem matchLE_iff (a b : MatchResult) :
    matchLE a b = true ↔
      (b.score < a.score ∨ (a.score = b.score ∧ (b.confidence < a.confidence ∨
        (a.confidence = b.confidence ∧ a.candidate_id ≤ b.candidate_id)))) := by
  simp [matchLE]

theorem matchLE_total (a b : MatchResult) : matchLE a b || matchLE b a := by
  simp only [Bool.or_eq_true, matchLE_iff]
  rcases lt_trichotomy a.score b.score with h | h | h
  · exact Or.inr (Or.inl h)
  · rcases lt_trichotomy a.confidence b.confidence with h2 | h2 | h2
    · exact Or.inr (Or.inr ⟨h.symm, Or.inl h2⟩)
    · rcases Nat.le_total a.candidate_id b.candidate_id with h3 | h3
      · exact Or.inl (Or.inr ⟨h, Or.inr ⟨h2, h3⟩⟩)
      · exact Or.inr (Or.inr ⟨h.symm, Or.inr ⟨h2.symm, h3⟩⟩)
    · exact Or.inl (Or.inr ⟨h, Or.inl h2⟩)
  · exact Or.inl (Or.inl h)

theorem matchLE_trans (a b c : MatchResult) :
    matchLE a b → matchLE b c → matchLE a c := by
  simp only [matchLE_iff]
  intro h1 h2
  rcases h1 with h1 | ⟨e1, h1⟩
  · rcases h2 with h2 | ⟨e2, _⟩
    · exact Or.inl (h2.trans h1)
    · exact Or.inl (by rw [← e2]; exact h1)
  · rcases h2 with h2 | ⟨e2, h2⟩
    · exact Or.inl (by rw [e1]; exact h2)
    · refine Or.inr ⟨e1.trans e2, ?_⟩
      rcases h1 with h1 | ⟨f1, h1⟩
      · rcases h2 with h2 | ⟨f2, _⟩
        · exact Or.inl (h2.trans h1)
        · exact Or.inl (by rw [← f2]; exact h1)
      · rcases h2 with h2 | ⟨f2, h2⟩
        · exact Or.inl (by rw [f1]; exact h2)
        · exact Or.inr ⟨f1.trans f2, h1.trans h2⟩

theorem rank_candidates_pairwise
    (B : Profile → Requirement → Except BackendErr RawScore) (jid : Nat)
    (r : Requirement) (cands : List (Nat × Profile)) (k : Nat) :
    (rank_candidates B jid r cands k).Pairwise (fun a b =>
      b.score < a.score ∨ (a.score = b.score ∧ (b.confidence < a.confidence ∨
        (a.confidence = b.confidence ∧ a.candidate_id ≤ b.candidate_id)))) := by
  unfold rank_candidates
  have hs := List.sorted_mergeSort
    (fun a b c => matchLE_trans a b c) matchLE_total
    (cands.map (fun c => score_pair B c.1 jid c.2 r))
  have hp := hs.sublist (List.take_sublist k _)
  exact hp.imp (fun h => (matchLE_iff _ _).mp h)

theorem rank_candidates_length
    (B : Profile → Requirement → Except BackendErr RawScore) (jid : Nat)
    (r : Requirement) (cands : List (Nat × Profile)) (k : Nat) :
    (rank_candidates B jid r cands k).length = min k cands.length := by
  unfold rank_candidates
  rw [List.length_take, List.length_mergeSort, List.length_map]

/-- C2: for every requirement, candidate sequence and k > 0, `rank_candidates`
returns exactly min(k, number of candidates) results, ordered descending by
score with ties broken by confidence descending and then candidate id
ascending. -/
theorem c2_rank_shape (B : Profile → Requirement → Except BackendErr RawScore)
    (jid : Nat) (r : Requirement) (cands : List (Nat × Profile)) (k : Nat)
    (_hk : 0 < k) :
    (rank_candidates B jid r cands k).length = min k cands.length ∧
    (rank_candidates B jid r cands k).Pairwise (fun a b =>
      b.score < a.score ∨ (a.score = b.score ∧ (b.confidence < a.confidence ∨
        (a.confidence = b.confidence ∧ a.candidate_id ≤ b.candidate_id)))) :=
  ⟨rank_candidates_length B jid r cands k, rank_candidates_pairwise B jid r cands k⟩

/-- Witness for C2 with the failing backend, two requested results and the
ten demo candidates. -/
theorem c2_rank_shape_witness :
    0 < 2 ∧
    ((rank_candidates failBackend 1 reqPySqlAws demoCands 2).length =
        min 2 demoCands.length ∧
      (rank_candidates failBackend 1 reqPySqlAws demoCands 2).Pairwise (fun a b =>
        b.score < a.score ∨ (a.score = b.score ∧ (b.confidence < a.confidence ∨
          (a.confidence = b.confidence ∧ a.candidate_id ≤ b.candidate_id))))) :=
  ⟨by decide, c2_rank_shape failBackend 1 reqPySqlAws demoCands 2 (by decide)⟩

/-- C5: with a generation backend that always fails, `rank_candidates` never
surfaces the failure: it still returns exactly k results (k within the pool
size), each of which is the deterministic fallback score of one of the
candidates, with scores inside [0,100]. -/
theorem c5_backend_failure_resilience (e : BackendErr) (jid : Nat)
    (r : Requirement) (cands : List (Nat × Profile)) (k : Nat)
    (hk : k ≤ cands.length) :
    (rank_candidates (fun _ _ => .error e) jid r cands k).length = k ∧
    ∀ m ∈ rank_candidates (fun _ _ => .error e) jid r cands k,
      (0 ≤ m.score ∧ m.score ≤ 100) ∧
        ∃ c ∈ cands, m = score_fallback c.1 jid c.2 r := by
  constructor
  · rw [rank_candidates_length]
    exact Nat.min_eq_left hk
  · intro m hm
    unfold rank_candidates at hm
    have hm2 : m ∈ (cands.map
        (fun c => score_pair (fun _ _ => .error e) c.1 jid c.2 r)).mergeSort matchLE :=
      List.mem_of_mem_take hm
    rw [List.mem_mergeSort, List.mem_map] at hm2
    obtain ⟨c, hc, hcm⟩ := hm2
    have hfb : score_pair (fun _ _ => .error e) c.1 jid c.2 r =
        score_fallback c.1 jid c.2 r := rfl
    refine ⟨?_, c, hc, ?_⟩
    · rw [← hcm, hfb]
      exact score_fallback_score_bounds c.1 jid c.2 r
    · rw [← hcm, hfb]

/-- Witness for C5: ten demo candidates, top 3 requested. -/
theorem c5_backend_failure_resilience_witness :
    3 ≤ demoCands.length ∧
    ((rank_candidates (fun _ _ => .error BackendErr.BackendUnavailable)
        1 reqPySqlAws demoCands 3).length = 3 ∧
      ∀ m ∈ rank_candidates (fun _ _ => .error BackendErr.BackendUnavailable)
          1 reqPySqlAws demoCands 3,
        (0 ≤ m.score ∧ m.score ≤ 100) ∧
          ∃ c ∈ demoCands, m = score_fallback c.1 1 c.2 reqPySqlAws) :=
  ⟨by decide,
    c5_backend_failure_resilience BackendErr.BackendUnavailable 1 reqPySqlAws
      demoCands 3 (by decide)⟩

/-- C6: `extract_profile` on the empty string returns a Profile with an empty
skills set and absent name and email, for any backend; and on a failing
backend it never surfaces the error, returning the keyword-scan Profile with
all other fields empty. -/
theorem c6_extract_empty_and_failure (B : String → Except ExtractErr RawProfile)
    (vocab : List String) :
    ((extract_profile B vocab "").skills = some ∅ ∧
      (extract_profile B vocab "").name = none ∧
      (extract_profile B vocab "").email = none) ∧
    (∀ raw e, raw ≠ "" →
      extract_profile (fun _ => .error e) vocab raw =
        { name := none, email := none
          skills := some (scanSkills vocab (raw.take 20000))
          experience_summary := none, titles := [] }) := by
  constructor
  · have h : extract_profile B vocab "" = emptyProfile := by simp [extract_profile]
    rw [h]
    exact ⟨rfl, rfl, rfl⟩
  · intro raw e hraw
    simp [extract_profile, hraw]

/-- Witness for C6 on a nonempty input with a failing extraction backend. -/
theorem c6_extract_empty_and_failure_witness :
    ("resume text" ≠ "") ∧
    extract_profile (fun _ => (.error ExtractErr.MalformedResponse :
        Except ExtractErr RawProfile)) ["python"] "resume text" =
      { name := none, email := none
        skills := some (scanSkills ["python"] ("resume text".take 20000))
        experience_summary := none, titles := [] } :=
  ⟨by decide,
    (c6_extract_empty_and_failure failExtractBackend ["python"]).2
      "resume text" ExtractErr.MalformedResponse (by decide)⟩

/-- C7: `extract_profile` is deterministic in its input text: two calls with
identical text and identical backend behaviour give identical Profiles, and
under the fallback path the skills set does not depend on which failure
occurred — it is a function of the text and vocabulary alone. -/
theorem c7_extract_skills_deterministic :
    (∀ (B1 B2 : String → Except ExtractErr RawProfile)
        (vocab : List String) (raw : String),
      (∀ s, B1 s = B2 s) →
      extract_profile B1 vocab raw = extract_profile B2 vocab raw) ∧
    (∀ (vocab : List String) (raw : String) (e1 e2 : ExtractErr),
      (extract_profile (fun _ => .error e1) vocab raw).skills =
        (extract_profile (fun _ => .error e2) vocab raw).skills) := by
  constructor
  · intro B1 B2 vocab raw h
    unfold extract_profile
    simp only [h]
  · intro vocab raw e1 e2
    rfl

/-- Witness for C7 with the failing extraction backend on both calls. -/
theorem c7_extract_skills_deterministic_witness :
    (∀ s, failExtractBackend s = failExtractBackend s) ∧
    extract_profile failExtractBackend ["python"] "python dev" =
      extract_profile failExtractBackend ["python"] "python dev" :=
  ⟨fun _ => rfl,
    c7_extract_skills_deterministic.1 failExtractBackend failExtractBackend
      ["python"] "python dev" (fun _ => rfl)⟩

/-- C8 counterexample: the string "42" JSON-parses successfully (to the number
42), so `formatSkills` returns that parsed value, which is not an array —
refuting the claim that `formatSkills` returns an array for every input. -/
theorem c8_formatSkills_counterexample :
    (jsonParse "42").isSome = true ∧
      (formatSkills (JSValue.str "42")).isArray = false := by
  constructor
  · decide
  · decide

/-- C8 (amended): `formatSkills` is total and returns an array for every
input except a non-falsy string that JSON-parses to a non-array value, in
which case it returns that parsed value unchanged. Falsy inputs (null,
undefined, false, 0, the empty string) yield the empty array, arrays are
returned as-is, a non-falsy string that parses yields the parsed value, and a
non-falsy string that does not parse yields its comma-split trimmed parts. -/
theorem c8_formatSkills_amended :
    (∀ v, (formatSkills v).isArray = true ∨
      ∃ s w, v = JSValue.str s ∧ jsonParse s = some w ∧ w.isArray = false ∧
        formatSkills v = w) ∧
    (formatSkills JSValue.null = JSValue.arr []) ∧
    (formatSkills JSValue.undef = JSValue.arr []) ∧
    (∀ xs, formatSkills (JSValue.arr xs) = JSValue.arr xs) ∧
    (∀ s w, jsFalsy (JSValue.str s) = false → jsonParse s = some w →
      formatSkills (JSValue.str s) = w) ∧
    (∀ s, jsFalsy (JSValue.str s) = false → jsonParse s = none →
      formatSkills (JSValue.str s) =
        JSValue.arr ((s.splitOn ",").map (fun t => JSValue.str t.trim))) := by
  refine ⟨?_, rfl, rfl, fun xs => rfl, ?_, ?_⟩
  · intro v
    cases v with
    | null => exact Or.inl rfl
    | undef => exact Or.inl rfl
    | bool b => cases b <;> exact Or.inl rfl
    | num q =>
        by_cases hq : q = 0 <;>
          simp [formatSkills, jsFalsy, hq, JSValue.isArray]
    | arr xs => exact Or.inl rfl
    | str s =>
        by_cases hs : s = ""
        · exact Or.inl (by simp [formatSkills, jsFalsy, hs, JSValue.isArray])
        · cases hp : jsonParse s with
          | none =>
              exact Or.inl (by simp [formatSkills, jsFalsy, hs, hp, JSValue.isArray])
          | some w =>
              cases hw : w.isArray with
              | true =>
                  exact Or.inl (by simp [formatSkills, jsFalsy, hs, hp, hw])
              | false =>
                  exact Or.inr ⟨s, w, rfl, hp, hw,
                    by simp [formatSkills, jsFalsy, hs, hp]⟩
  · intro s w hf hp
    simp only [jsFalsy, decide_eq_false_iff_not] at hf
    simp [formatSkills, jsFalsy, hf, hp]
  · intro s hf hp
    simp only [jsFalsy, decide_eq_false_iff_not] at hf
    simp [formatSkills, jsFalsy, hf, hp]

/-- Witness for C8 (amended) on the non-JSON string "python". -/
theorem c8_formatSkills_amended_witness :
    jsFalsy (JSValue.str "python") = false ∧ jsonParse "python" = none ∧
    formatSkills (JSValue.str "python") =
      JSValue.arr (("python".splitOn ",").map (fun t => JSValue.str t.trim)) :=
  ⟨by decide, rfl,
    c8_formatSkills_amended.2.2.2.2.2 "python" (by decide) rfl⟩

theorem runRetry_count_le {E A : Type} (calls : Nat → Except E A) :
    ∀ n a, (runRetry calls n a).2 ≤ n
  | 0, _ => by simp [runRetry]
  | 1, a => by
      unfold runRetry
      cases calls a <;> simp
  | n + 2, a => by
      unfold runRetry
      cases calls a with
      | ok v => simp
      | error e =>
          have ih := runRetry_count_le calls (n + 1) (a + 1)
          simpa using Nat.succ_le_succ ih

theorem runRetry_first_success {E A : Type} (calls : Nat → Except E A) :
    ∀ n a j v, a ≤ j → j < a + n → calls j = .ok v →
      (∀ i, a ≤ i → i < j → ∃ er, calls i = .error er) →
      runRetry calls n a = (.ok v, j - a + 1)
  | 0, a, j, v, h1, h2, _, _ => absurd h2 (by omega)
  | 1, a, j, v, h1, h2, hok, _ => by
      have hj : j = a := by omega
      subst hj
      unfold runRetry
      rw [hok]
      simp
  | n + 2, a, j, v, h1, h2, hok, hfail => by
      unfold runRetry
      rcases Nat.eq_or_lt_of_le h1 with heq | hlt
      · subst heq
        rw [hok]
        simp
      · obtain ⟨er, her⟩ := hfail a (Nat.le_refl a) hlt
        have ih := runRetry_first_success calls (n + 1) (a + 1) j v hlt (by omega)
          hok (fun i hi1 hi2 => hfail i (by omega) hi2)
        have harith : j - (a + 1) + 1 + 1 = j - a + 1 := by omega
        simp only [her, ih]
        simp [harith]

theorem runRetry_all_fail {E A : Type} (calls : Nat → Except E A) :
    ∀ n a e, 1 ≤ n → calls (a + n - 1) = .error e →
      (∀ i, a ≤ i → i < a + n → ∃ er, calls i = .error er) →
      runRetry calls n a = (.thrown e, n)
  | 0, _, _, h1, _, _ => absurd h1 (by omega)
  | 1, a, e, _, herr, _ => by
      have ha : a + 1 - 1 = a := by omega
      rw [ha] at herr
      unfold runRetry
      rw [herr]
  | n + 2, a, e, _, herr, hall => by
      unfold runRetry
      obtain ⟨er, her⟩ := hall a (Nat.le_refl a) (by omega)
      have ih := runRetry_all_fail calls (n + 1) (a + 1) e (by omega)
        (by have ha : a + 1 + (n + 1) - 1 = a + (n + 2) - 1 := by omega
            rw [ha]
            exact herr)
        (fun i hi1 hi2 => hall i (by omega) (by omega))
      simp only [her, ih]

/-- C9: `withRetry` with maxRetries ≥ 1 invokes the call at most maxRetries
times, resolves with the value of the first successful attempt, and rethrows
the error of the final attempt exactly when every attempt fails; with
maxRetries ≤ 0 the loop body never runs, no call is made, and the function
resolves to undefined. -/
theorem c9_withRetry_behaviour {E A : Type} (calls : Nat → Except E A) (m : Int) :
    (m ≤ 0 → withRetry calls m = (.undef, 0)) ∧
    ((withRetry calls m).2 ≤ m.toNat) ∧
    (∀ j v, 1 ≤ j → j ≤ m.toNat → calls j = .ok v →
      (∀ i, 1 ≤ i → i < j → ∃ er, calls i = .error er) →
      withRetry calls m = (.ok v, j)) ∧
    (∀ e, 1 ≤ m.toNat → calls m.toNat = .error e →
      (∀ i, 1 ≤ i → i ≤ m.toNat → ∃ er, calls i = .error er) →
      withRetry calls m = (.thrown e, m.toNat)) := by
  refine ⟨?_, ?_, ?_, ?_⟩
  · intro hm
    unfold withRetry
    rw [Int.toNat_of_nonpos hm]
    rfl
  · exact runRetry_count_le calls m.toNat 1
  · intro j v h1 h2 hok hfail
    unfold withRetry
    have h := runRetry_first_success calls m.toNat 1 j v h1 (by omega) hok hfail
    have harith : j - 1 + 1 = j := by omega
    rw [h, harith]
  · intro e h1 herr hall
    unfold withRetry
    exact runRetry_all_fail calls m.toNat 1 e h1
      (by have ha : 1 + m.toNat - 1 = m.toNat := by omega
          rw [ha]
          exact herr)
      (fun i hi1 hi2 => hall i hi1 (by omega))

/-- Concrete call sequence for the C9 witness: attempt 1 fails, attempt 2
succeeds with 7. -/
def retryDemoCalls : Nat → Except Unit Nat :=
  fun i => if i = 2 then .ok 7 else .error ()

/-- Witness for C9: with three allowed retries, the first success at attempt 2
is returned after exactly two invocations. -/
theorem c9_withRetry_behaviour_witness :
    retryDemoCalls 2 = Except.ok 7 ∧
      withRetry retryDemoCalls 3 = (RetryResult.ok 7, 2) :=
  ⟨rfl,
    (c9_withRetry_behaviour retryDemoCalls 3).2.2.1 2 7 (by decide) (by decide) rfl
      (by intro i hi1 hi2
          have hi : i = 1 := by omega
          subst hi
          exact ⟨(), rfl⟩)⟩

/-- C10 counterexample: an 11MB pdf against the default 10MB limit takes the
oversized early return, which skips the input reset — refuting the claim that
the input value is reset in all cases. -/
theorem c10_handleFileChange_counterexample :
    handleFileChange ".pdf,.txt,.doc,.docx" 10
        (some { name := "big.pdf", size := 11534336 }) =
      { selected := none, reset := false } := by
  have h : (10:ℚ) < ((11534336:Nat) : ℚ) / (1024 * 1024) := by norm_num
  simp [handleFileChange, h]
  intro hc
  exact absurd hc (by norm_num)

/-- C10 (amended): `handleFileChange` calls `onFileSelect` exactly when a file
is chosen whose size is at most maxSizeInMB megabytes and whose lowercase
extension is in the accepted list; the input value is reset when no file was
chosen or the file was accepted, but an oversized or wrong-typed file returns
early before the reset. -/
theorem c10_handleFileChange_amended (acceptedTypes : String) (maxMB : ℚ) :
    handleFileChange acceptedTypes maxMB none =
      { selected := none, reset := true } ∧
    ∀ f : JSFile,
      ((handleFileChange acceptedTypes maxMB (some f)).selected = some f ↔
        ((f.size : ℚ) / (1024 * 1024) ≤ maxMB ∧
          fileExt f.name ∈ acceptedExtList acceptedTypes)) ∧
      ((handleFileChange acceptedTypes maxMB (some f)).selected = some f ∨
        (handleFileChange acceptedTypes maxMB (some f)).selected = none) ∧
      ((handleFileChange acceptedTypes maxMB (some f)).reset =
        (handleFileChange acceptedTypes maxMB (some f)).selected.isSome) := by
  refine ⟨rfl, ?_⟩
  intro f
  unfold handleFileChange
  dsimp only
  split_ifs with h1 h2
  · refine ⟨?_, Or.inr rfl, rfl⟩
    simp [h1.not_le]
  · refine ⟨?_, Or.inl rfl, rfl⟩
    have hmem : fileExt f.name ∈ acceptedExtList acceptedTypes := by
      simpa using h2
    simp [not_lt.mp h1, hmem]
  · refine ⟨?_, Or.inr rfl, rfl⟩
    have hmem : fileExt f.name ∉ acceptedExtList acceptedTypes := by
      simpa using h2
    simp [hmem]

end TalentTalk
